import Mathlib

/-!
Verification of the SOAP utility core of the playwrightAPI repository
(src/utils/soapUtils.ts): a template renderer, a SOAP request sender, and a
regex-based XML value extractor. The TypeScript source is shallowly embedded:
strings become `List Char` or `String`, the JavaScript regex
`<tag>([^<]+)</tag>` becomes an explicit leftmost textual matcher, the HTTP
transport becomes a function parameter, and the filesystem becomes a mapping
from paths to optional contents.
-/

namespace SoapUtils

/-! ## XML value extractor (extractXmlValue) -/

/-- Predicate for the regex character class carved out by the source pattern:
the capture group matches one or more characters other than a left angle
bracket. -/
def notLt (c : Char) : Bool := c ≠ '<'

/-- Text of the opening tag built by the source for a tag name. -/
def openTag (t : List Char) : List Char := '<' :: (t ++ ['>'])

/-- Text of the closing tag built by the source for a tag name. -/
def closeTag (t : List Char) : List Char := '<' :: '/' :: (t ++ ['>'])

/-- Attempt of the regex match anchored at the start of `s`: the opening tag,
then the maximal nonempty run of characters other than a left angle bracket,
then the closing tag. This is exactly how `<tag>([^<]+)</tag>` can match at a
fixed position, since the capture class excludes the character that begins the
closing tag. -/
def matchAt (t s : List Char) : Option (List Char) :=
  if (openTag t).isPrefixOf s then
    let rest := s.drop (openTag t).length
    let c := rest.takeWhile notLt
    if c = [] then none
    else if (closeTag t).isPrefixOf (rest.dropWhile notLt) then some c
    else none
  else none

/-- Leftmost-match scan of `String.prototype.match` with a non-global regex:
try the anchored match at each start position from the left, return the first
capture. -/
def extractXmlCore (t : List Char) : List Char → Option (List Char)
  | [] => none
  | c :: cs =>
    match matchAt t (c :: cs) with
    | some r => some r
    | none => extractXmlCore t cs

/-- Embedding of `extractXmlValue(xmlResponse, xpath)` from
src/utils/soapUtils.ts: match `<xpath>([^<]+)</xpath>` against the response
text and return the first capture group, or the absence signal (`null`,
embedded as `none`). -/
def extractXmlValue (xmlResponse xpath : String) : Option String :=
  (extractXmlCore xpath.data xmlResponse.data).map (fun l => String.mk l)

/-- Specification-level occurrence predicate: at index `i` of `xml` stands the
substring `<t>c</t>` where `c` is a nonempty run of characters other than a
left angle bracket. -/
def tagOccursAt (t xml : List Char) (i : Nat) (c : List Char) : Prop :=
  c ≠ [] ∧ (∀ ch ∈ c, notLt ch = true) ∧
    (openTag t ++ (c ++ closeTag t)) <+: xml.drop i

/-- Bare element local name: nonempty and alphanumeric only, so that
interpolating it into the regex pattern of the source yields a literal match
and the `RegExp` constructor cannot fail. -/
def bareLocalName (t : String) : Bool :=
  decide (t.data ≠ []) && t.data.all (fun c => c.isAlphanum)

/-! ## SOAP request sender (sendSoapRequest) -/

/-- Default header object built by `sendSoapRequest` before the token check:
Content-Type, Accept, SOAPAction (the `action || ''` fallback becomes
`getD ""`), and the fixed user agent, in insertion order. -/
def defaultHeaders (action : Option String) : List (String × String) :=
  [("Content-Type", "text/xml;charset=UTF-8"),
   ("Accept", "text/xml"),
   ("SOAPAction", (action.getD "")),
   ("User-Agent", "Playwright SOAP Client/1.0")]

/-- Header set actually sent: the defaults, then `Authorization: Bearer <tok>`
added only when `bearerToken` is truthy in JavaScript, which excludes both the
absent argument and the empty string. -/
def buildHeaders (bearerToken action : Option String) : List (String × String) :=
  defaultHeaders action ++
    (match bearerToken with
     | some tok => if tok = "" then [] else [("Authorization", "Bearer " ++ tok)]
     | none => [])

/-- First-match key lookup in a header list, the read side of a JavaScript
header object. -/
def headerLookup (k : String) (hs : List (String × String)) : Option String :=
  (hs.find? (fun p => p.fst == k)).map Prod.snd

/-- Opaque transport response: status code, header collection, body text. -/
structure SoapResponse where
  status : Nat
  headerList : List (String × String)
  body : String
  deriving DecidableEq

/-- Embedding of `sendSoapRequest`: build the headers, issue the single POST
through the supplied transport, and pass the outcome through. The 403 branch
of the source only writes log lines and returns the response unmodified; a
transport error is logged and rethrown unchanged. -/
def sendSoapRequest
    (post : String → List (String × String) → String → Except String SoapResponse)
    (endpoint payload : String) (bearerToken action : Option String) :
    Except String SoapResponse :=
  match post endpoint (buildHeaders bearerToken action) payload with
  | Except.ok r => Except.ok r
  | Except.error e => Except.error e

/-- Merge of an extra-header mapping over a base header set, later entries
overriding identically named earlier ones. -/
def mergeHeaders (base extra : List (String × String)) : List (String × String) :=
  (base.filter (fun p => (extra.find? (fun q => q.fst == p.fst)).isNone)) ++ extra

/-- Header construction written from the specification text, which claims a
further `extraHeaders` argument merged last over the defaults and the
Authorization entry. The source function takes no such argument; this
definition exists only to be compared with `buildHeaders`. -/
def sendHeadersSpec (bearerToken action : Option String)
    (extraHeaders : List (String × String)) : List (String × String) :=
  mergeHeaders (buildHeaders bearerToken action) extraHeaders

/-! ## Template renderer (loadSoapTemplate / processSoapTemplate) -/

/-- Left curly brace character, written by code point to keep it out of
string literals. -/
def lcurly : Char := Char.ofNat 123

/-- Right curly brace character, written by code point. -/
def rcurly : Char := Char.ofNat 125

/-- Modelled from the spec: the Handlebars substitution pass used by
`processSoapTemplate` (the templating library itself is outside src/). A
double-curly placeholder naming a key is replaced by the corresponding value;
a missing key substitutes the empty string; all other text is copied
verbatim. The fuel argument is the length of the remaining input, which each
step strictly consumes. -/
def substAux (vars : List (String × String)) : Nat → List Char → List Char
  | 0, s => s
  | _ + 1, [] => []
  | fuel + 1, c :: cs =>
    if c = lcurly then
      match cs with
      | c2 :: cs2 =>
        if c2 = lcurly then
          let nm := cs2.takeWhile (fun ch => ch ≠ rcurly)
          match cs2.dropWhile (fun ch => ch ≠ rcurly) with
          | _ :: r2 :: rest =>
            if r2 = rcurly then
              ((((vars.find? (fun p => p.fst == String.mk nm)).map
                  Prod.snd).getD "").data) ++ substAux vars fuel rest
            else c :: substAux vars fuel cs
          | _ => c :: substAux vars fuel cs
        else c :: substAux vars fuel cs
      | [] => [c]
    else c :: substAux vars fuel cs

/-- Render a template string against a substitution set. -/
def renderString (vars : List (String × String)) (tpl : String) : String :=
  String.mk (substAux vars tpl.data.length tpl.data)

/-- Placeholder names referenced by a template, collected by the same
double-curly scan as the substitution pass. -/
def placeholdersAux : Nat → List Char → List String
  | 0, _ => []
  | _ + 1, [] => []
  | fuel + 1, c :: cs =>
    if c = lcurly then
      match cs with
      | c2 :: cs2 =>
        if c2 = lcurly then
          let nm := cs2.takeWhile (fun ch => ch ≠ rcurly)
          match cs2.dropWhile (fun ch => ch ≠ rcurly) with
          | _ :: r2 :: rest =>
            if r2 = rcurly then String.mk nm :: placeholdersAux fuel rest
            else placeholdersAux fuel cs
          | _ => placeholdersAux fuel cs
        else placeholdersAux fuel cs
      | [] => []
    else placeholdersAux fuel cs

/-- Placeholders referenced by a template string. -/
def placeholdersOf (tpl : String) : List String :=
  placeholdersAux tpl.data.length tpl.data

/-- Error taxonomy of the renderer: the only failure of the source loader is
the missing-resource case, surfaced by the spec as `TemplateNotFound`. -/
inductive TemplateError where
  | templateNotFound : TemplateError
  deriving DecidableEq

/-- Path built by `loadSoapTemplate` for a template name. -/
def templatePath (templateName : String) : String :=
  "../api/requests/" ++ templateName ++ ".xml"

/-- Embedding of `loadSoapTemplate`: resolve the name to a path and read the
resource from the filesystem mapping; a missing resource fails with
`TemplateNotFound` (the `readFileSync` throw of the source). -/
def loadSoapTemplate (fs : String → Option String) (templateName : String) :
    Except TemplateError String :=
  match fs (templatePath templateName) with
  | some content => Except.ok content
  | none => Except.error TemplateError.templateNotFound

/-- Embedding of `processSoapTemplate`: load the template and render it with
the provided data. -/
def processSoapTemplate (fs : String → Option String) (templateName : String)
    (data : List (String × String)) : Except TemplateError String :=
  match loadSoapTemplate fs templateName with
  | Except.ok content => Except.ok (renderString data content)
  | Except.error e => Except.error e

/-! ## Characterization of the anchored match -/

/-- Anchored match against the empty string always fails. -/
theorem matchAt_nil (t : List Char) : matchAt t [] = none := rfl

/-- Splitting a run of characters satisfying `notLt` followed by a left angle
bracket: `takeWhile` keeps exactly the run and `dropWhile` keeps the rest. -/
theorem takeWhile_notLt_append (c rest : List Char)
    (hc : ∀ ch ∈ c, notLt ch = true) :
    (c ++ '<' :: rest).takeWhile notLt = c ∧
      (c ++ '<' :: rest).dropWhile notLt = '<' :: rest := by
  induction c with
  | nil => simp [List.takeWhile_cons, List.dropWhile_cons, notLt]
  | cons a c ih =>
    have ha : notLt a = true := hc a (List.mem_cons_self a c)
    have h2 := ih (fun ch hch => hc ch (List.mem_cons_of_mem a hch))
    constructor
    · simp [List.takeWhile_cons, ha, h2.1]
    · simp [List.dropWhile_cons, ha, h2.2]

/-- Characterization of the anchored match: it returns capture `c` exactly
when the scanned text starts with the opening tag, then a nonempty run `c` of
characters other than a left angle bracket, then the closing tag. -/
theorem matchAt_some_iff (t s c : List Char) :
    matchAt t s = some c ↔
      (c ≠ [] ∧ (∀ ch ∈ c, notLt ch = true) ∧
        (openTag t ++ (c ++ closeTag t)) <+: s) := by
  constructor
  · intro h
    by_cases h1 : (openTag t).isPrefixOf s
    · by_cases h2 : (s.drop (openTag t).length).takeWhile notLt = []
      · simp [matchAt, h1, h2] at h
      · by_cases h3 : (closeTag t).isPrefixOf
            ((s.drop (openTag t).length).dropWhile notLt)
        · have hc : (s.drop (openTag t).length).takeWhile notLt = c := by
            simpa [matchAt, h1, h2, h3] using h
          obtain ⟨rest₁, hrest₁⟩ := List.isPrefixOf_iff_prefix.1 h1
          have hdrop : s.drop (openTag t).length = rest₁ := by
            rw [← hrest₁, List.drop_left]
          obtain ⟨rest₂, hrest₂⟩ := List.isPrefixOf_iff_prefix.1 h3
          refine ⟨hc ▸ h2, ?_, ?_⟩
          · intro ch hch
            rw [← hc] at hch
            exact List.mem_takeWhile_imp hch
          · refine ⟨rest₂, ?_⟩
            have hkc : rest₁.takeWhile notLt = c := by rw [← hdrop]; exact hc
            have hkd : rest₁.dropWhile notLt = closeTag t ++ rest₂ := by
              rw [← hdrop]; exact hrest₂.symm
            have hr1 : rest₁ = c ++ (closeTag t ++ rest₂) := by
              rw [← hkc, ← hkd]
              exact (List.takeWhile_append_dropWhile notLt rest₁).symm
            rw [← hrest₁, hr1]
            simp
        · simp [matchAt, h1, h2, h3] at h
    · simp [matchAt, h1] at h
  · rintro ⟨hne, hall, s₂, hs⟩
    have hclose : ∃ tl, closeTag t ++ s₂ = '<' :: tl := ⟨'/' :: (t ++ ['>']) ++ s₂, rfl⟩
    obtain ⟨tl, htl⟩ := hclose
    have hper : s = openTag t ++ (c ++ ('<' :: tl)) := by
      rw [← hs]
      simp [htl.symm]
    have h1 : (openTag t).isPrefixOf s := by
      rw [List.isPrefixOf_iff_prefix]
      exact ⟨c ++ ('<' :: tl), by rw [hper]⟩
    have hdrop : s.drop (openTag t).length = c ++ ('<' :: tl) := by
      rw [hper, List.drop_left]
    have hsplit := takeWhile_notLt_append c tl hall
    have h2 : (s.drop (openTag t).length).takeWhile notLt = c := by
      rw [hdrop]; exact hsplit.1
    have h2d : (s.drop (openTag t).length).dropWhile notLt = '<' :: tl := by
      rw [hdrop]; exact hsplit.2
    have h3 : (closeTag t).isPrefixOf ((s.drop (openTag t).length).dropWhile notLt) := by
      rw [h2d, ← htl, List.isPrefixOf_iff_prefix]
      exact ⟨s₂, rfl⟩
    have h2ne : ¬ (s.drop (openTag t).length).takeWhile notLt = [] := by
      rw [h2]; exact hne
    simp [matchAt, h1, h2ne, h3, h2, hne]

/-- Failure characterization of the scan: it returns the absence signal
exactly when the anchored match fails at every start position. -/
theorem extractXmlCore_none_iff (t xml : List Char) :
    extractXmlCore t xml = none ↔
      ∀ i c, matchAt t (xml.drop i) = some c → False := by
  induction xml with
  | nil => simp [extractXmlCore, matchAt_nil]
  | cons hd tl ih =>
    constructor
    · intro h i c hm
      cases hmt : matchAt t (hd :: tl) with
      | some r => simp [extractXmlCore, hmt] at h
      | none =>
        have h' : extractXmlCore t tl = none := by
          simpa [extractXmlCore, hmt] using h
        cases i with
        | zero =>
          rw [List.drop_zero, hmt] at hm
          exact Option.noConfusion hm
        | succ i => exact (ih.1 h') i c (by simpa using hm)
    · intro h
      have hmt : matchAt t (hd :: tl) = none := by
        cases hmt : matchAt t (hd :: tl) with
        | none => rfl
        | some r => exact absurd (h 0 r (by simpa using hmt)) (by simp)
      have htl : extractXmlCore t tl = none :=
        ih.2 (fun i c hc => h (i + 1) c (by simpa using hc))
      simp [extractXmlCore, hmt, htl]

/-- Success characterization of the scan: it returns capture `c` exactly when
the anchored match yields `c` at some start position that is minimal among
all positions where the anchored match succeeds — the leftmost-match rule of
`String.prototype.match`. -/
theorem extractXmlCore_some_iff (t xml c : List Char) :
    extractXmlCore t xml = some c ↔
      ∃ i, matchAt t (xml.drop i) = some c ∧
        ∀ j c', matchAt t (xml.drop j) = some c' → i ≤ j := by
  induction xml with
  | nil => simp [extractXmlCore, matchAt_nil]
  | cons hd tl ih =>
    cases hmt : matchAt t (hd :: tl) with
    | some r =>
      constructor
      · intro h
        have hc : r = c := by simpa [extractXmlCore, hmt] using h
        exact ⟨0, by simpa [hc] using hmt, fun j c' _ => Nat.zero_le j⟩
      · rintro ⟨i, hi, hmin⟩
        have hi0 : i = 0 :=
          Nat.le_antisymm (hmin 0 r (by simpa using hmt)) (Nat.zero_le i)
        subst hi0
        rw [List.drop_zero, hmt] at hi
        have hrc : r = c := Option.some.inj hi
        simp [extractXmlCore, hmt, hrc]
    | none =>
      rw [show extractXmlCore t (hd :: tl) = extractXmlCore t tl by
        simp [extractXmlCore, hmt]]
      rw [ih]
      constructor
      · rintro ⟨i, hi, hmin⟩
        refine ⟨i + 1, by simpa using hi, ?_⟩
        intro j c' hj
        cases j with
        | zero =>
          rw [List.drop_zero, hmt] at hj
          exact absurd hj (by simp)
        | succ j => exact Nat.succ_le_succ (hmin j c' (by simpa using hj))
      · rintro ⟨i, hi, hmin⟩
        cases i with
        | zero =>
          rw [List.drop_zero, hmt] at hi
          exact absurd hi (by simp)
        | succ i =>
          refine ⟨i, by simpa using hi, ?_⟩
          intro j c' hj
          have := hmin (j + 1) c' (by simpa using hj)
          omega

/-! ## Theorems -/

/-- C2 counterexample: on the input of the spec example, `extractXmlValue`
returns the absence signal, not the literal CDATA text — the content after
`<x>` begins with a left angle bracket, so the nonempty capture class of the
regex cannot match at all. -/
theorem extract_cdata_counterexample :
    extractXmlValue "<x><![CDATA[<y>]]></x>" "x" = none := by decide

/-- C2 amended: extract applied to the CDATA input with tag name `x` returns
the absence signal, because the content begins with the left angle bracket of
the CDATA marker, which the capture class `[^<]+` excludes. -/
theorem extract_cdata_absent :
    extractXmlValue "<x><![CDATA[<y>]]></x>" "x" = none := by decide

/-- C4: with token `tok123` the constructed header set maps `Authorization`
to exactly `Bearer tok123`, and with no token argument the header set has no
`Authorization` entry at all, whatever the action argument. -/
theorem authorization_header (action : Option String) :
    headerLookup "Authorization" (buildHeaders (some "tok123") action)
      = some "Bearer tok123" ∧
    headerLookup "Authorization" (buildHeaders none action) = none :=
  ⟨rfl, rfl⟩

/-- C9: an empty-string bearer token is falsy in JavaScript, so the header
set it produces is identical to the no-token one and omits `Authorization`
entirely. -/
theorem empty_token_no_auth (action : Option String) :
    buildHeaders (some "") action = buildHeaders none action ∧
    headerLookup "Authorization" (buildHeaders (some "") action) = none :=
  ⟨rfl, rfl⟩

/-- C5: the sender is a pure pass-through around the single transport call —
when the transport returns a response it is returned unmodified whatever its
status code (403 included, since that branch only logs), and when the
transport fails the error is re-raised unchanged. -/
theorem send_passthrough
    (post : String → List (String × String) → String → Except String SoapResponse)
    (endpoint payload : String) (bearerToken action : Option String) :
    (∀ r, post endpoint (buildHeaders bearerToken action) payload = Except.ok r →
      sendSoapRequest post endpoint payload bearerToken action = Except.ok r) ∧
    (∀ e, post endpoint (buildHeaders bearerToken action) payload = Except.error e →
      sendSoapRequest post endpoint payload bearerToken action = Except.error e) := by
  constructor
  · intro r h
    simp [sendSoapRequest, h]
  · intro e h
    simp [sendSoapRequest, h]

/-- Witness for C5: a transport returning a 403 response has that response
passed through as an ordinary value, and a failing transport has its error
re-raised unchanged. -/
theorem send_passthrough_witness :
    sendSoapRequest (fun _ _ _ => Except.ok ⟨403, [], "forbidden"⟩)
      "https://e.example/soap" "<p/>" none none
      = Except.ok ⟨403, [], "forbidden"⟩ ∧
    sendSoapRequest (fun _ _ _ => Except.error "ECONNREFUSED")
      "https://e.example/soap" "<p/>" none none
      = Except.error "ECONNREFUSED" :=
  ⟨(send_passthrough (fun _ _ _ => Except.ok ⟨403, [], "forbidden"⟩)
      "https://e.example/soap" "<p/>" none none).1 _ rfl,
   (send_passthrough (fun _ _ _ => Except.error "ECONNREFUSED")
      "https://e.example/soap" "<p/>" none none).2 _ rfl⟩

/-- C7: for every filesystem in which the template name resolves to no
resource, `processSoapTemplate` fails with `TemplateNotFound` rather than
returning any rendered string. -/
theorem render_template_not_found (fs : String → Option String)
    (templateName : String) (data : List (String × String))
    (h : fs (templatePath templateName) = none) :
    processSoapTemplate fs templateName data
      = Except.error TemplateError.templateNotFound := by
  simp [processSoapTemplate, loadSoapTemplate, h]

/-- Witness for C7: on the empty filesystem, rendering any template name
fails with `TemplateNotFound`. -/
theorem render_template_not_found_witness :
    processSoapTemplate (fun _ => none) "getWeatherRequest" [("cityCode", "NYC")]
      = Except.error TemplateError.templateNotFound :=
  render_template_not_found (fun _ => none) "getWeatherRequest"
    [("cityCode", "NYC")] rfl

/-- C3 counterexample: the header set actually constructed by the sender is
not the merge described by the spec — the source `sendSoapRequest` takes no
extra-headers argument, so an `Accept` override that the spec merge honours
never reaches the constructed set, which keeps `Accept: text/xml`. -/
theorem extra_headers_counterexample :
    buildHeaders none none
        ≠ sendHeadersSpec none none [("Accept", "application/json")] ∧
    headerLookup "Accept" (sendHeadersSpec none none [("Accept", "application/json")])
        = some "application/json" ∧
    headerLookup "Accept" (buildHeaders none none) = some "text/xml" := by
  refine ⟨?_, rfl, rfl⟩
  decide

/-- C3 amended: the sender accepts no extra-headers mapping; the constructed
header set only ever carries the four default keys plus, when a truthy token
is supplied, `Authorization` — no caller-supplied entry is merged. -/
theorem sendHeaders_keys (bearerToken action : Option String) (k : String)
    (h : k ∈ (buildHeaders bearerToken action).map Prod.fst) :
    k = "Content-Type" ∨ k = "Accept" ∨ k = "SOAPAction" ∨
      k = "User-Agent" ∨ k = "Authorization" := by
  cases bearerToken with
  | none =>
    simp [buildHeaders, defaultHeaders] at h
    tauto
  | some tok =>
    by_cases htok : tok = "" <;>
      simp [buildHeaders, defaultHeaders, htok] at h <;> tauto

/-- Witness for the amended C3: `Authorization` occurs among the keys built
with a token, and is one of the five permitted keys. -/
theorem sendHeaders_keys_witness :
    "Authorization" = "Content-Type" ∨ "Authorization" = "Accept" ∨
      "Authorization" = "SOAPAction" ∨ "Authorization" = "User-Agent" ∨
      "Authorization" = "Authorization" :=
  sendHeaders_keys (some "tok") none "Authorization" (by decide)

/-- C6: rendering is deterministic and pure — under a fixed filesystem, a
template whose referenced placeholders are all covered by the substitution
set renders to the same result on any two calls; the embedding is a pure
function of its inputs, the only resource touched being the filesystem read. -/
theorem render_deterministic (fs : String → Option String) (templateName : String)
    (data : List (String × String)) (tpl : String)
    (hload : fs (templatePath templateName) = some tpl)
    (hcov : ∀ p ∈ placeholdersOf tpl, p ∈ data.map Prod.fst)
    (r₁ r₂ : Except TemplateError String)
    (h₁ : processSoapTemplate fs templateName data = r₁)
    (h₂ : processSoapTemplate fs templateName data = r₂) : r₁ = r₂ := by
  rw [← h₁, ← h₂]

/-- Sample filesystem holding one template with one placeholder, used by the
determinism witness. -/
def sampleFs : String → Option String :=
  fun p => if p = "../api/requests/getWeatherRequest.xml"
    then some "<q>\x7b\x7bcityCode\x7d\x7d</q>" else none

/-- Witness for C6: two renders of the sample template with the same
substitution set agree. -/
theorem render_deterministic_witness :
    processSoapTemplate sampleFs "getWeatherRequest" [("cityCode", "NYC")]
      = processSoapTemplate sampleFs "getWeatherRequest" [("cityCode", "NYC")] :=
  render_deterministic sampleFs "getWeatherRequest" [("cityCode", "NYC")]
    "<q>\x7b\x7bcityCode\x7d\x7d</q>" (by decide) (by decide) _ _ rfl rfl

/-- C8: for every input text and every bare element local name, extraction is
total — it returns either a captured string or the absence signal and can
never raise, since a bare alphanumeric name interpolates into the source
pattern as a literal and the scan performs no structural validation. -/
theorem extract_total (xmlText tagName : String)
    (h : bareLocalName tagName = true) :
    extractXmlValue xmlText tagName = none ∨
      ∃ s, extractXmlValue xmlText tagName = some s := by
  cases hx : extractXmlValue xmlText tagName with
  | none => exact Or.inl rfl
  | some s => exact Or.inr ⟨s, rfl⟩

/-- Witness for C8: extraction on a thoroughly malformed input terminates
with a definite answer. -/
theorem extract_total_witness :
    extractXmlValue "not xml at all <<<>>>" "a" = none ∨
      ∃ s, extractXmlValue "not xml at all <<<>>>" "a" = some s :=
  extract_total "not xml at all <<<>>>" "a" (by decide)

/-- C1: extraction returns the absence signal exactly when the input holds no
substring `<t>c</t>` with `c` a nonempty run of characters other than a left
angle bracket, and otherwise returns the captured inner text of the first
(leftmost) such occurrence; in particular the spec example extracts `NYC`. -/
theorem extract_first_occurrence :
    (∀ xml t : List Char,
      ((extractXmlCore t xml = none) ↔ ∀ i c, ¬ tagOccursAt t xml i c) ∧
      (∀ c, extractXmlCore t xml = some c →
        ∃ i, tagOccursAt t xml i c ∧
          ∀ j c', tagOccursAt t xml j c' → i ≤ j)) ∧
    extractXmlValue "<a><cityCode>NYC</cityCode></a>" "cityCode" = some "NYC" := by
  constructor
  · intro xml t
    have hocc : ∀ i c, tagOccursAt t xml i c ↔ matchAt t (xml.drop i) = some c :=
      fun i c => (matchAt_some_iff t (xml.drop i) c).symm
    constructor
    · rw [extractXmlCore_none_iff]
      constructor
      · intro h i c hc
        exact h i c ((hocc i c).1 hc)
      · intro h i c hm
        exact h i c ((hocc i c).2 hm)
    · intro c h
      obtain ⟨i, hi, hmin⟩ := (extractXmlCore_some_iff t xml c).1 h
      exact ⟨i, (hocc i c).2 hi, fun j c' hj => hmin j c' ((hocc j c').1 hj)⟩
  · decide

/-- Witness for C1: on `<x>hi</x>` the scan finds the occurrence of `hi` and
that occurrence is leftmost. -/
theorem extract_first_occurrence_witness :
    ∃ i, tagOccursAt ['x'] "<x>hi</x>".data i ['h', 'i'] ∧
      ∀ j c', tagOccursAt ['x'] "<x>hi</x>".data j c' → i ≤ j :=
  (extract_first_occurrence.1 "<x>hi</x>".data ['x']).2 ['h', 'i'] (by decide)

/-- C10: a successful extraction always captures at least one character, and
an element with empty content is no match — the concatenation of the opening
and closing tags alone yields the absence signal, for every tag text. -/
theorem extract_nonempty :
    (∀ t xml c : List Char, extractXmlCore t xml = some c → c ≠ []) ∧
    (∀ t : List Char, extractXmlCore t (openTag t ++ closeTag t) = none) := by
  constructor
  · intro t xml c h
    obtain ⟨i, hi, -⟩ := (extractXmlCore_some_iff t xml c).1 h
    exact ((matchAt_some_iff t (xml.drop i) c).1 hi).1
  · intro t
    rw [extractXmlCore_none_iff]
    intro i c hm
    obtain ⟨hne, -, hpre⟩ := (matchAt_some_iff _ _ _).1 hm
    have hlen := hpre.length_le
    simp [List.length_append, List.length_drop] at hlen
    have hc : 1 ≤ c.length := by
      cases c with
      | nil => exact absurd rfl hne
      | cons a l => simp
    omega

/-- Witness for C10: the capture on `<x>a</x>` is nonempty, and the scan on
the empty-content element `<x></x>` fails. -/
theorem extract_nonempty_witness :
    (['a'] : List Char) ≠ [] ∧
      extractXmlCore ['x'] (openTag ['x'] ++ closeTag ['x']) = none :=
  ⟨extract_nonempty.1 ['x'] "<x>a</x>".data ['a'] (by decide),
   extract_nonempty.2 ['x']⟩

end SoapUtils
